import Mathlib

/-!
Shallow embedding of the lending-library core in src/lib/lending-library.ts.

Modeling conventions:
- JS runtime values are JsVal; numbers are integers (every number the
  validators let through is an integer, and no claim depends on fractional
  numbers), undefined is modeled by absence of the field, null by JsVal.null.
- JS string-keyed objects are association lists in insertion order; reading a
  field is getRec, assigning a field is setRec.
- The mutable LendingLibrary instance is the LibState structure; every mutating
  method is a function from the old state to the new state paired with its
  result, where an early error return yields the state as mutated so far.
- Strings are handled at the level of their character lists; toLowerCase is
  modeled by mapping Char.toLower (exact for the ASCII data of the claims).
-/

namespace LL

/-- One TS Errors.Err value: a message, the widget option and the code option. -/
structure Err where
  message : String
  widget : String
  code : String
deriving DecidableEq, Repr

deriving instance DecidableEq for Except

/-- A TS Errors.Result: either a value or the accumulated error list. -/
abbrev Res (α : Type) := Except (List Err) α

/-- JS runtime values as far as the library inspects them. Arrays carry
strings: the only array the code reads is the authors array, and the type
check classifies an array with a non-string element as a plain object, so a
string list covers every array a claim can mention. -/
inductive JsVal where
  | str : String → JsVal
  | num : Int → JsVal
  | bool : Bool → JsVal
  | arr : List String → JsVal
  | null : JsVal
deriving DecidableEq, Repr

/-- A raw JS object (field-name to value mapping) in insertion order. -/
abbrev JsRec := List (String × JsVal)

/-- Reading a string-keyed field of a JS object modeled as an assoc list. -/
def getRec {α : Type} : List (String × α) → String → Option α
  | [], _ => none
  | (k, v) :: rest, key => if k = key then some v else getRec rest key

/-- Assigning a string-keyed field of a JS object modeled as an assoc list. -/
def setRec {α : Type} : List (String × α) → String → α → List (String × α)
  | [], key, v => [(key, v)]
  | (k, w) :: rest, key, v =>
      if k = key then (k, v) :: rest else (k, w) :: setRec rest key v

/-- The stored book record (type XBook of the source, all fields present). -/
structure XBook where
  isbn : String
  title : String
  authors : List String
  pages : Int
  year : Int
  publisher : String
  nCopies : Int
deriving DecidableEq, Repr

/-- The four private properties of the LendingLibrary class. -/
structure LibState where
  booksIndex : List (String × XBook)
  patronBooks : List (String × List String)
  checkBooks : List (String × List String)
  wordIndex : List (String × List String)
deriving DecidableEq, Repr

/-- The state of a freshly constructed LendingLibrary. -/
def emptyLib : LibState := ⟨[], [], [], []⟩

/-- View of patronBooks at a patron, with the JS undefined read as []. -/
def patronHeld (st : LibState) (p : String) : List String :=
  (getRec st.patronBooks p).getD []

/-- View of checkBooks at an isbn, with the JS undefined read as []. -/
def bookHolders (st : LibState) (i : String) : List String :=
  (getRec st.checkBooks i).getD []

/-- View of wordIndex at a word, with the JS undefined read as []. -/
def getWI (st : LibState) (w : String) : List String :=
  (getRec st.wordIndex w).getD []

/-! Schema configuration (the RequiredType constant of the source). -/

/-- One entry of a conditions array: a predicate and its message. -/
structure Cond where
  cond : JsVal → Bool
  msg : String

/-- Configuration of one schema field. -/
structure FieldConfig where
  type : String
  required : Bool
  typePlaceHolder : Option String
  conds : List Cond

/-- A RequiredConfig of the source: field names with their configuration. -/
abbrev Schema := List (String × FieldConfig)

/-- The predicate val smaller or equal 0 on a number. -/
def jsLeZero : JsVal → Bool
  | .num n => decide (n ≤ 0)
  | _ => false

/-- Negation of Number.isInteger; numbers of the model are integers. -/
def jsNotInt : JsVal → Bool
  | .num _ => false
  | _ => true

/-- JS whitespace as far as the search strings of the claims use it. -/
def jsSpace (c : Char) : Bool :=
  c == ' ' || c == '\t' || c == '\n' || c == '\r'

/-- The search condition val.trim() equal to the empty string: it holds exactly
when every character of the string is whitespace. -/
def jsBlank : JsVal → Bool
  | .str s => s.data.all jsSpace
  | _ => false

/-- RequiredType.Book of the source. -/
def RequiredType.Book : Schema := [
  ("isbn", ⟨"string", true, none, []⟩),
  ("title", ⟨"string", true, none, []⟩),
  ("authors", ⟨"array", true, some "string[]", []⟩),
  ("pages", ⟨"number", true, none,
    [⟨jsLeZero, "nNumber of pages should be greater than 0"⟩,
     ⟨jsNotInt, "nNumber of pages should be greater than 0"⟩]⟩),
  ("year", ⟨"number", true, none,
    [⟨jsLeZero, "nYear must be greater than 0"⟩,
     ⟨jsNotInt, "nYear must be integer value"⟩]⟩),
  ("publisher", ⟨"string", true, none, []⟩),
  ("nCopies", ⟨"number", false, none,
    [⟨jsLeZero, "nNumber of copies should be greater than 0"⟩,
     ⟨jsNotInt, "nNumber of copies should be an integer value"⟩]⟩)]

/-- RequiredType.CheckBook of the source. -/
def RequiredType.CheckBook : Schema := [
  ("isbn", ⟨"string", true, none, []⟩),
  ("patronId", ⟨"string", true, none, []⟩)]

/-- RequiredType.FindBook of the source. -/
def RequiredType.FindBook : Schema := [
  ("search", ⟨"string", true, none,
    [⟨jsBlank,
      "Search property is required and cannot be empty or contain special characters"⟩]⟩)]

/-- getSchemaFromType of the source: infer the runtime shape of a value. The
every-element-is-a-string test of the array case holds for every array the
model can express, so only the nonemptiness part remains. -/
def getSchemaFromType : JsVal → String
  | .str _ => "string"
  | .num _ => "number"
  | .bool _ => "boolean"
  | .arr l => if l.length != 0 then "array" else "object"
  | .null => "null"

/-! The three sequenced validation checks. -/

/-- The error list built by checkRequiredProps: one MISSING error per required
field absent from the input, in schema order. -/
def missingErrs (req : JsRec) (schema : Schema) : List Err :=
  (schema.filter fun kc => kc.2.required && (getRec req kc.1).isNone).map
    fun kc => ⟨"The Property " ++ kc.1 ++ " must be required", kc.1, "MISSING"⟩

/-- checkRequiredProps of the source. -/
def checkRequiredProps (req : JsRec) (schema : Schema) : Res JsRec :=
  if 0 < (missingErrs req schema).length then .error (missingErrs req schema)
  else .ok req

/-- The error list built by checkPropsType: one BAD_TYPE error per present,
non-null field whose inferred shape differs from the declared type. -/
def typeErrs (req : JsRec) (schema : Schema) : List Err :=
  schema.filterMap fun kc =>
    match getRec req kc.1 with
    | none => none
    | some JsVal.null => none
    | some v =>
      if getSchemaFromType v ≠ kc.2.type then
        some ⟨"Property " ++ kc.1 ++ " must be " ++ kc.2.typePlaceHolder.getD kc.2.type,
              kc.1, "BAD_TYPE"⟩
      else none

/-- checkPropsType of the source. -/
def checkPropsType (req : JsRec) (schema : Schema) : Res JsRec :=
  if 0 < (typeErrs req schema).length then .error (typeErrs req schema)
  else .ok req

/-- The errors one field contributes in checkBadReq: each satisfied condition
of a present, non-null value pushes a BAD_REQ error. -/
def condErrs (req : JsRec) (kc : String × FieldConfig) : List Err :=
  match getRec req kc.1 with
  | none => []
  | some JsVal.null => []
  | some v => (kc.2.conds.filter fun c => c.cond v).map fun c => ⟨c.msg, kc.1, "BAD_REQ"⟩

/-- The error list built by checkBadReq over all schema fields. -/
def badReqErrs (req : JsRec) (schema : Schema) : List Err :=
  schema.flatMap (condErrs req)

/-- checkBadReq of the source. -/
def checkBadReq (req : JsRec) (schema : Schema) : Res JsRec :=
  if 0 < (badReqErrs req schema).length then .error (badReqErrs req schema)
  else .ok req

/-! Re-registration consistency check. -/

/-- checkEqual of the source: true when the two values are inconsistent.
Arrays are compared by length and then element-wise; everything else by
strict equality. -/
def checkEqual : JsVal → JsVal → Bool
  | .arr a, .arr b => if a.length ≠ b.length then true else decide (a ≠ b)
  | v, w => decide (v ≠ w)

/-- Reading a stored book field by name, as the value the JS comparison sees. -/
def bookField (bk : XBook) : String → JsVal
  | "isbn" => .str bk.isbn
  | "title" => .str bk.title
  | "authors" => .arr bk.authors
  | "pages" => .num bk.pages
  | "year" => .num bk.year
  | "publisher" => .str bk.publisher
  | _ => .null

/-- The required field names of the book schema, in schema order. -/
def requiredBookFields : List String :=
  (RequiredType.Book.filter fun kc => kc.2.required).map Prod.fst

/-- Coercion of a JsVal to the string the code reads from it. -/
def jsStr : JsVal → String
  | .str s => s
  | _ => ""

/-- Reading a field of a raw object; absent fields read as null (the code only
reads fields whose shape validation has already pinned down). -/
def field (req : JsRec) (k : String) : JsVal :=
  (getRec req k).getD JsVal.null

/-- The error list built by checkInconsistentProps against the stored record,
one BAD_REQ error per inconsistent required field, in schema order. -/
def inconsistentErrs (req : JsRec) (bk : XBook) : List Err :=
  requiredBookFields.filterMap fun prop =>
    if checkEqual (field req prop) (bookField bk prop) then
      some ⟨"Inconsistent data for property " ++ prop ++ " in book " ++
              jsStr (field req "isbn"),
            prop, "BAD_REQ"⟩
    else none

/-- checkInconsistentProps of the source, specialized to the book schema it is
called with (the stored record is the comparison object). -/
def checkInconsistentProps (req : JsRec) (bk : XBook) : Res JsRec :=
  if 0 < (inconsistentErrs req bk).length then .error (inconsistentErrs req bk)
  else .ok req

/-! Word extraction and set machinery. -/

/-- A word character of the regex backslash-w class: ASCII letter, digit or
underscore. -/
def isWordChar (c : Char) : Bool :=
  (decide ('a' ≤ c) && decide (c ≤ 'z')) || (decide ('A' ≤ c) && decide (c ≤ 'Z')) ||
  (decide ('0' ≤ c) && decide (c ≤ '9')) || c == '_'

/-- Splitting on runs of non-word characters and dropping empty fragments,
over the character list with the word built so far (reversed). -/
def wordsAux : List Char → List Char → List (List Char)
  | [], cur => if cur.isEmpty then [] else [cur.reverse]
  | c :: rest, cur =>
    if isWordChar c then wordsAux rest (c :: cur)
    else if cur.isEmpty then wordsAux rest []
    else cur.reverse :: wordsAux rest []

/-- extractWords of the source: lower-case, split on non-word runs, drop
empty fragments. -/
def extractWords (text : String) : List String :=
  (wordsAux (text.data.map Char.toLower) []).map fun l => String.mk l

/-- Building a JS Set from a list: first occurrences in insertion order. -/
def jsSetAux : List String → List String → List String
  | [], acc => acc.reverse
  | x :: rest, acc => if x ∈ acc then jsSetAux rest acc else jsSetAux rest (x :: acc)

/-- A JS Set, modeled as its element list in insertion order. -/
def jsSet (l : List String) : List String := jsSetAux l []

/-- intersectionSet of the source: when A is nonempty keep the members of A
that B has; when A is empty return a copy of B. -/
def intersectionSet (A B : List String) : List String :=
  if A.length ≠ 0 then A.filter fun x => decide (x ∈ B) else B

/-- The lower-cased title used by the findBooks comparator. -/
def lowerStr (s : String) : String := String.mk (s.data.map Char.toLower)

/-- The findBooks sort: ascending by lower-cased title (the locale-aware
comparison of the source agrees with code-point order on the data of the
claims); a stable insertion sort models the stable Array.prototype.sort. -/
def sortBooks (l : List XBook) : List XBook :=
  List.insertionSort (fun a b => lowerStr a.title ≤ lowerStr b.title) l

/-! The four public operations. -/

/-- Truthiness of a JsVal under JS coercion. -/
def jsFalsy : JsVal → Bool
  | .num n => n == 0
  | .str s => s == ""
  | .bool b => !b
  | .arr _ => false
  | .null => true

/-- The expression req.nCopies or-else 1 of the source: the field value when
present and truthy, otherwise the number 1. -/
def reqNCopies (req : JsRec) : JsVal :=
  match getRec req "nCopies" with
  | some v => if jsFalsy v then .num 1 else v
  | none => .num 1

/-- Coercion of a JsVal to the integer the code reads from it. -/
def jsNum : JsVal → Int
  | .num n => n
  | _ => 0

/-- Coercion of a JsVal to the string list the code reads from it. -/
def jsStrList : JsVal → List String
  | .arr l => l
  | _ => []

/-- The XBook literal the new-book branch of addBook builds from the request. -/
def mkXBook (req : JsRec) (nc : Int) : XBook :=
  ⟨jsStr (field req "isbn"), jsStr (field req "title"), jsStrList (field req "authors"),
   jsNum (field req "pages"), jsNum (field req "year"), jsStr (field req "publisher"), nc⟩

/-- The while loop of addBook: push the isbn onto the entry of every word, in
order, creating missing entries as empty lists first. -/
def indexWords (wi : List (String × List String)) (ws : List String) (isbn : String) :
    List (String × List String) :=
  ws.foldl (fun acc w => setRec acc w (((getRec acc w).getD []) ++ [isbn])) wi

/-- addBook of the source. -/
def addBook (st : LibState) (req : JsRec) : LibState × Res XBook :=
  let ncopies := reqNCopies req
  match checkRequiredProps req RequiredType.Book with
  | .error es => (st, .error es)
  | .ok _ =>
    match checkPropsType req RequiredType.Book with
    | .error es => (st, .error es)
    | .ok _ =>
      match checkBadReq req RequiredType.Book with
      | .error es => (st, .error es)
      | .ok _ =>
        let isbn := jsStr (field req "isbn")
        match getRec st.booksIndex isbn with
        | some existing =>
          match checkInconsistentProps req existing with
          | .error es => (st, .error es)
          | .ok _ =>
            let updated : XBook := { existing with nCopies := existing.nCopies + jsNum ncopies }
            ({ st with booksIndex := setRec st.booksIndex isbn updated }, .ok updated)
        | none =>
          let words := extractWords (jsStr (field req "title")) ++
            (jsStrList (field req "authors")).flatMap extractWords
          let book := mkXBook req (jsNum ncopies)
          ({ st with booksIndex := setRec st.booksIndex isbn book,
                     wordIndex := indexWords st.wordIndex words isbn }, .ok book)

/-- A book no reachable lookup ever resolves to; it stands for the undefined
a dangling index entry would produce in JS. -/
def dummyBook : XBook := ⟨"", "", [], 0, 0, "", 0⟩

/-- findBooks of the source; it never mutates the state. -/
def findBooks (st : LibState) (req : JsRec) : Res (List XBook) :=
  match checkRequiredProps req RequiredType.FindBook with
  | .error es => .error es
  | .ok _ =>
    match checkPropsType req RequiredType.FindBook with
    | .error es => .error es
    | .ok _ =>
      match checkBadReq req RequiredType.FindBook with
      | .error es => .error es
      | .ok _ =>
        let words := extractWords (jsStr (field req "search"))
        if words.length = 0 ∨ ¬ words.any (fun w => decide (1 < w.length)) then
          .error [⟨"Empty search Query", "search", "BAD_REQ"⟩]
        else
          let matching := words.foldl (fun m w => intersectionSet m (jsSet (getWI st w))) []
          let books := matching.map fun i => (getRec st.booksIndex i).getD dummyBook
          .ok (sortBooks books)

/-- The unknown-book error of checkout and return. -/
def unknownBookErr (isbn : String) : Err :=
  ⟨"unknown book " ++ isbn, "isbn", "BAD_REQ"⟩

/-- The no-available-copies error of checkout. -/
def noCopiesErr (isbn : String) : Err :=
  ⟨"There are no available copies of the book with ISBN " ++ isbn ++ " for checkout.",
   "isbn", "BAD_REQ"⟩

/-- The already-checked-out error of checkout. -/
def alreadyOutErr (isbn patronId : String) : Err :=
  ⟨"The book with ISBN " ++ isbn ++ " has already been checked out by patron " ++
     patronId ++ ".",
   "isbn", "BAD_REQ"⟩

/-- The two or-else-empty assignments of checkoutBook lines 219 and 220: make
sure both ledger entries exist, creating them as empty lists if absent. -/
def ensureEntries (st : LibState) (patronId isbn : String) : LibState :=
  { st with checkBooks := setRec st.checkBooks isbn ((getRec st.checkBooks isbn).getD []),
            patronBooks :=
              setRec st.patronBooks patronId ((getRec st.patronBooks patronId).getD []) }

/-- Lines 209 to 247 of checkoutBook, after validation has extracted the two
strings. The two or-else-empty assignments create the ledger entries before
the business-rule conditions run, so a failing call still keeps them. -/
def checkoutCore (st : LibState) (patronId isbn : String) : LibState × Res Unit :=
  match getRec st.booksIndex isbn with
  | none => (st, .error [unknownBookErr isbn])
  | some book =>
    let st1 : LibState := ensureEntries st patronId isbn
    if book.nCopies ≤ ((bookHolders st1 isbn).length : Int) then
      (st1, .error [noCopiesErr book.isbn])
    else if isbn ∈ patronHeld st1 patronId then
      (st1, .error [alreadyOutErr isbn patronId])
    else
      ({ st1 with patronBooks := setRec st1.patronBooks patronId (patronHeld st1 patronId ++ [isbn]),
                  checkBooks := setRec st1.checkBooks isbn (bookHolders st1 isbn ++ [patronId]) },
       .ok ())

/-- checkoutBook of the source: validate, then run the core on the extracted
patronId and isbn strings. -/
def checkoutBook (st : LibState) (req : JsRec) : LibState × Res Unit :=
  match checkRequiredProps req RequiredType.CheckBook with
  | .error es => (st, .error es)
  | .ok _ =>
    match checkPropsType req RequiredType.CheckBook with
    | .error es => (st, .error es)
    | .ok _ => checkoutCore st (jsStr (field req "patronId")) (jsStr (field req "isbn"))

/-- The no-such-patron error of return. -/
def noPatronErr (patronId : String) : Err :=
  ⟨"Patron " ++ patronId ++ " does not exist", "patronId", "BAD_REQ"⟩

/-- The not-checked-out error of return. -/
def noCheckoutErr (isbn patronId : String) : Err :=
  ⟨"No checkout of book " ++ isbn ++ " by patron " ++ patronId, "isbn", "BAD_REQ"⟩

/-- Lines 267 to 315 of returnBook, after validation has extracted the two
strings. The splice at indexOf removes the first occurrence, hence
List.erase; the checkBooks side is guarded by indexOf not being -1. The
checkBooks entry is read with an empty default: in every state the public
API can reach, the entry exists whenever the patron holds the book, and JS
would throw on the lookup otherwise. -/
def returnCore (st : LibState) (patronId isbn : String) : LibState × Res Unit :=
  match getRec st.booksIndex isbn with
  | none => (st, .error [unknownBookErr isbn])
  | some _ =>
    match getRec st.patronBooks patronId with
    | none => (st, .error [noPatronErr patronId])
    | some held =>
      if isbn ∈ held then
        let holders := (getRec st.checkBooks isbn).getD []
        let st2 : LibState := { st with patronBooks := setRec st.patronBooks patronId (held.erase isbn) }
        if patronId ∈ holders then
          ({ st2 with checkBooks := setRec st2.checkBooks isbn (holders.erase patronId) }, .ok ())
        else (st2, .ok ())
      else (st, .error [noCheckoutErr isbn patronId])

/-- returnBook of the source: validate, then run the core on the extracted
patronId and isbn strings. -/
def returnBook (st : LibState) (req : JsRec) : LibState × Res Unit :=
  match checkRequiredProps req RequiredType.CheckBook with
  | .error es => (st, .error es)
  | .ok _ =>
    match checkPropsType req RequiredType.CheckBook with
    | .error es => (st, .error es)
    | .ok _ => returnCore st (jsStr (field req "patronId")) (jsStr (field req "isbn"))

/-! Operation sequences from the empty library. -/

/-- One public mutating call; findBooks never touches the state, so the three
mutating operations generate every reachable state. -/
inductive Op where
  | add (req : JsRec)
  | checkout (req : JsRec)
  | ret (req : JsRec)

/-- The state after one operation. -/
def applyOp (st : LibState) : Op → LibState
  | .add req => (addBook st req).1
  | .checkout req => (checkoutBook st req).1
  | .ret req => (returnBook st req).1

/-- The state after a sequence of operations. -/
def runOps (st : LibState) : List Op → LibState
  | [] => st
  | op :: rest => runOps (applyOp st op) rest

/-- A checkout or return request built from the two identifier strings. -/
def mkCkReq (patronId isbn : String) : JsRec :=
  [("patronId", .str patronId), ("isbn", .str isbn)]

/-- A find request built from the search string. -/
def mkFindReq (search : String) : JsRec := [("search", .str search)]

/-! Concrete fixtures used by witnesses and counterexamples. -/

/-- A valid registration request for the book Water Only. -/
def wreq1 : JsRec :=
  [("isbn", .str "b1"), ("title", .str "Water Only"), ("authors", .arr ["Smith"]),
   ("pages", .num 100), ("year", .num 2000), ("publisher", .str "Pub")]

/-- The record stored for wreq1. -/
def wbook1 : XBook := ⟨"b1", "Water Only", ["Smith"], 100, 2000, "Pub", 1⟩

/-- The state with just the book of wreq1 registered. -/
def wst1 : LibState := (addBook emptyLib wreq1).1

/-- wreq1 with a different title, same identifier. -/
def wreq2 : JsRec := setRec wreq1 "title" (.str "Other")

/-- The state after registering wreq1 and checking its single copy out. -/
def c3st : LibState := runOps emptyLib [Op.add wreq1, Op.checkout (mkCkReq "pa" "b1")]

/-- A valid registration request whose title has a one-character word. -/
def areq : JsRec :=
  [("isbn", .str "b2"), ("title", .str "A Water"), ("authors", .arr ["Ann"]),
   ("pages", .num 50), ("year", .num 1999), ("publisher", .str "P")]

/-- A valid registration request whose title and author share a word. -/
def wreq3 : JsRec :=
  [("isbn", .str "b3"), ("title", .str "Water Tale"), ("authors", .arr ["Water Jones"]),
   ("pages", .num 10), ("year", .num 2001), ("publisher", .str "Q")]

/-- The record stored for wreq3. -/
def wbook3 : XBook := ⟨"b3", "Water Tale", ["Water Jones"], 10, 2001, "Q", 1⟩

/-! Lemmas about the assoc-list record operations. -/

theorem getRec_setRec_self {α : Type} (l : List (String × α)) (k : String) (v : α) :
    getRec (setRec l k v) k = some v := by
  induction l with
  | nil => simp [getRec, setRec]
  | cons kv rest ih =>
    obtain ⟨k1, w⟩ := kv
    by_cases h : k1 = k
    · simp [setRec, getRec, h]
    · simp [setRec, getRec, h, ih]

theorem getRec_setRec_ne {α : Type} (l : List (String × α)) (k k' : String) (v : α)
    (h : k' ≠ k) : getRec (setRec l k v) k' = getRec l k' := by
  induction l with
  | nil =>
    have hk : k ≠ k' := fun he => h he.symm
    simp [getRec, setRec, hk]
  | cons kv rest ih =>
    obtain ⟨k1, w⟩ := kv
    by_cases h1 : k1 = k
    · subst h1
      have hk : k1 ≠ k' := fun he => h he.symm
      simp [setRec, getRec, hk]
    · by_cases h2 : k1 = k'
      · subst h2
        simp [setRec, getRec, h1]
      · simp [setRec, getRec, h1, h2, ih]

theorem setRec_setRec {α : Type} (l : List (String × α)) (k : String) (v w : α) :
    setRec (setRec l k v) k w = setRec l k w := by
  induction l with
  | nil => simp [setRec]
  | cons kv rest ih =>
    obtain ⟨k1, u⟩ := kv
    by_cases h : k1 = k
    · simp [setRec, h]
    · simp [setRec, h, ih]

/-! Lemmas about the JS Set model. -/

theorem mem_jsSetAux (l acc : List String) (x : String) :
    x ∈ jsSetAux l acc ↔ x ∈ l ∨ x ∈ acc := by
  induction l generalizing acc with
  | nil => simp [jsSetAux]
  | cons y rest ih =>
    by_cases h : y ∈ acc
    · simp only [jsSetAux, if_pos h, ih, List.mem_cons]
      constructor
      · rintro (hr | ha)
        · exact Or.inl (Or.inr hr)
        · exact Or.inr ha
      · rintro ((rfl | hr) | ha)
        · exact Or.inr h
        · exact Or.inl hr
        · exact Or.inr ha
    · simp only [jsSetAux, if_neg h, ih, List.mem_cons]
      tauto

theorem nodup_jsSetAux (l acc : List String) (h : acc.Nodup) :
    (jsSetAux l acc).Nodup := by
  induction l generalizing acc with
  | nil => simpa [jsSetAux] using h
  | cons y rest ih =>
    by_cases hy : y ∈ acc
    · simpa [jsSetAux, hy] using ih acc h
    · exact by simpa [jsSetAux, hy] using ih (y :: acc) (List.nodup_cons.mpr ⟨hy, h⟩)

theorem mem_jsSet (l : List String) (x : String) : x ∈ jsSet l ↔ x ∈ l := by
  simp [jsSet, mem_jsSetAux]

theorem nodup_jsSet (l : List String) : (jsSet l).Nodup :=
  nodup_jsSetAux l [] List.nodup_nil

/-! Lemmas about intersectionSet. -/

theorem nodup_intersectionSet (A B : List String) (hA : A.Nodup) (hB : B.Nodup) :
    (intersectionSet A B).Nodup := by
  unfold intersectionSet
  split
  · exact hA.filter _
  · exact hB

theorem mem_intersectionSet_of_ne_nil (A B : List String) (hA : A ≠ [])
    (x : String) : x ∈ intersectionSet A B ↔ x ∈ A ∧ x ∈ B := by
  unfold intersectionSet
  rw [if_pos (List.length_pos.mpr hA).ne']
  simp

theorem intersectionSet_nil (B : List String) : intersectionSet [] B = B := by
  simp [intersectionSet]

/-! Lemmas about the sort. -/

theorem sortBooks_perm (l : List XBook) : (sortBooks l).Perm l :=
  List.perm_insertionSort _ l

theorem mem_sortBooks (l : List XBook) (b : XBook) : b ∈ sortBooks l ↔ b ∈ l :=
  (sortBooks_perm l).mem_iff

/-! Lemmas about characters and word extraction. -/

theorem toNat_ofNat_valid (n : Nat) (h : n.isValidChar) : (Char.ofNat n).toNat = n := by
  rw [Char.ofNat, dif_pos h]
  rfl

theorem toLower_eq_ite (c : Char) :
    Char.toLower c = if c.toNat ≥ 65 ∧ c.toNat ≤ 90 then Char.ofNat (c.toNat + 32) else c :=
  rfl

theorem toLower_toLower (c : Char) :
    Char.toLower (Char.toLower c) = Char.toLower c := by
  by_cases h : c.toNat ≥ 65 ∧ c.toNat ≤ 90
  · have h1 : Char.toLower c = Char.ofNat (c.toNat + 32) := by
      rw [toLower_eq_ite, if_pos h]
    have hv : (c.toNat + 32).isValidChar := Or.inl (by omega)
    have h2 : (Char.toLower c).toNat = c.toNat + 32 := by
      rw [h1, toNat_ofNat_valid _ hv]
    rw [toLower_eq_ite (Char.toLower c), if_neg (by rw [h2]; omega)]
  · have h1 : Char.toLower c = c := by rw [toLower_eq_ite, if_neg h]
    rw [h1]
    exact h1

/-- Every token produced by the splitter is a nonempty run of word characters
drawn from the input or the accumulator. -/
theorem wordsAux_sound (cs : List Char) :
    ∀ cur, (∀ c ∈ cur, isWordChar c = true) →
      ∀ t ∈ wordsAux cs cur,
        t ≠ [] ∧ ∀ c ∈ t, isWordChar c = true ∧ (c ∈ cs ∨ c ∈ cur) := by
  induction cs with
  | nil =>
    intro cur hcur t ht
    by_cases hc : cur.isEmpty
    · simp [wordsAux, hc] at ht
    · simp only [wordsAux, if_neg hc, List.mem_singleton] at ht
      subst ht
      refine ⟨by simpa using fun he => hc (by simp [he]), ?_⟩
      intro c hc2
      rw [List.mem_reverse] at hc2
      exact ⟨hcur c hc2, Or.inr hc2⟩
  | cons d rest ih =>
    intro cur hcur t ht
    by_cases hd : isWordChar d
    · rw [wordsAux, if_pos hd] at ht
      have hcur' : ∀ c ∈ d :: cur, isWordChar c = true := by
        intro c hc
        rcases List.mem_cons.mp hc with rfl | hc
        · exact hd
        · exact hcur c hc
      obtain ⟨hne, hall⟩ := ih (d :: cur) hcur' t ht
      refine ⟨hne, ?_⟩
      intro c hc
      obtain ⟨hw, hm⟩ := hall c hc
      refine ⟨hw, ?_⟩
      rcases hm with hm | hm
      · exact Or.inl (List.mem_cons_of_mem d hm)
      · rcases List.mem_cons.mp hm with rfl | hm
        · exact Or.inl (List.mem_cons_self c rest)
        · exact Or.inr hm
    · rw [wordsAux, if_neg hd] at ht
      by_cases hc : cur.isEmpty
      · rw [if_pos hc] at ht
        obtain ⟨hne, hall⟩ := ih [] (by simp) t ht
        refine ⟨hne, ?_⟩
        intro c hcm
        obtain ⟨hw, hm⟩ := hall c hcm
        rcases hm with hm | hm
        · exact ⟨hw, Or.inl (List.mem_cons_of_mem d hm)⟩
        · simp at hm
      · rw [if_neg hc] at ht
        rcases List.mem_cons.mp ht with rfl | ht
        · refine ⟨by simpa using fun he => hc (by simp [he]), ?_⟩
          intro c hcm
          rw [List.mem_reverse] at hcm
          exact ⟨hcur c hcm, Or.inr hcm⟩
        · obtain ⟨hne, hall⟩ := ih [] (by simp) t ht
          refine ⟨hne, ?_⟩
          intro c hcm
          obtain ⟨hw, hm⟩ := hall c hcm
          rcases hm with hm | hm
          · exact ⟨hw, Or.inl (List.mem_cons_of_mem d hm)⟩
          · simp at hm

/-- On a list of word characters the splitter returns the single word made of
the accumulator and the rest. -/
theorem wordsAux_all_word (cs : List Char) :
    ∀ cur, (∀ c ∈ cs, isWordChar c = true) →
      wordsAux cs cur = if (cur.reverse ++ cs).isEmpty then [] else [cur.reverse ++ cs] := by
  induction cs with
  | nil =>
    intro cur _
    simp [wordsAux, List.isEmpty_iff]
  | cons d rest ih =>
    intro cur hall
    have hd : isWordChar d = true := hall d (List.mem_cons_self d rest)
    rw [wordsAux, if_pos hd, ih (d :: cur) (fun c hc => hall c (List.mem_cons_of_mem d hc))]
    have harr : (d :: cur).reverse ++ rest = cur.reverse ++ (d :: rest) := by simp
    rw [harr]

/-- The data of a string rebuilt from its data is itself. -/
theorem mk_data (s : String) : String.mk s.data = s := rfl

/-- Every word extracted from a string is nonempty, made of word characters,
and fixed by lower-casing. -/
theorem extractWords_good (s w : String) (hw : w ∈ extractWords s) :
    w.data ≠ [] ∧ ∀ c ∈ w.data, isWordChar c = true ∧ Char.toLower c = c := by
  unfold extractWords at hw
  obtain ⟨t, ht, rfl⟩ := List.mem_map.mp hw
  obtain ⟨hne, hall⟩ := wordsAux_sound (s.data.map Char.toLower) [] (by simp) t ht
  refine ⟨by simpa using hne, ?_⟩
  intro c hc
  obtain ⟨hword, hmem⟩ := hall c (by simpa using hc)
  refine ⟨hword, ?_⟩
  rcases hmem with hmem | hmem
  · obtain ⟨d, _, rfl⟩ := List.mem_map.mp hmem
    exact toLower_toLower d
  · simp at hmem

/-- A nonempty all-word-character lower-fixed string extracts to itself. -/
theorem extractWords_self (w : String) (hne : w.data ≠ [])
    (hall : ∀ c ∈ w.data, isWordChar c = true ∧ Char.toLower c = c) :
    extractWords w = [w] := by
  unfold extractWords
  have hmap : w.data.map Char.toLower = w.data := by
    rw [List.map_congr_left (fun c hc => (hall c hc).2)]
    simp
  rw [hmap, wordsAux_all_word w.data [] (fun c hc => (hall c hc).1)]
  simp only [List.reverse_nil, List.nil_append]
  rw [if_neg (by simpa [List.isEmpty_iff] using hne)]
  simp [mk_data]

/-- A word character is not whitespace. -/
theorem word_not_space (c : Char) (h : isWordChar c = true) : jsSpace c = false := by
  revert h
  unfold isWordChar jsSpace
  by_cases h1 : c = ' '
  · subst h1; decide
  · by_cases h2 : c = '\t'
    · subst h2; decide
    · by_cases h3 : c = '\n'
      · subst h3; decide
      · by_cases h4 : c = '\r'
        · subst h4; decide
        · intro _
          simp [h1, h2, h3, h4]

/-- The blank-search condition is false on a string containing a word
character. -/
theorem jsBlank_false (w : String) (c : Char) (hc : c ∈ w.data)
    (hw : isWordChar c = true) : jsBlank (JsVal.str w) = false := by
  unfold jsBlank
  rw [Bool.eq_false_iff]
  intro hall
  have := List.all_eq_true.mp hall c hc
  rw [word_not_space c hw] at this
  cases this

/-! View lemmas for ensureEntries and the ledger updates. -/

theorem patronHeld_ensure (st : LibState) (p i q : String) :
    patronHeld (ensureEntries st p i) q = patronHeld st q := by
  unfold ensureEntries patronHeld
  by_cases h : q = p
  · subst h; simp [getRec_setRec_self]
  · simp [getRec_setRec_ne _ _ _ _ h]

theorem bookHolders_ensure (st : LibState) (p i j : String) :
    bookHolders (ensureEntries st p i) j = bookHolders st j := by
  unfold ensureEntries bookHolders
  by_cases h : j = i
  · subst h; simp [getRec_setRec_self]
  · simp [getRec_setRec_ne _ _ _ _ h]

theorem booksIndex_ensure (st : LibState) (p i : String) :
    (ensureEntries st p i).booksIndex = st.booksIndex := rfl

theorem wordIndex_ensure (st : LibState) (p i : String) :
    (ensureEntries st p i).wordIndex = st.wordIndex := rfl

/-! Characterizations of the checkout and return cores. -/

theorem checkoutCore_unknown (st : LibState) (p i : String)
    (h : getRec st.booksIndex i = none) :
    checkoutCore st p i = (st, .error [unknownBookErr i]) := by
  simp [checkoutCore, h]

theorem checkoutCore_full (st : LibState) (p i : String) (bk : XBook)
    (h : getRec st.booksIndex i = some bk)
    (hfull : bk.nCopies ≤ ((bookHolders st i).length : Int)) :
    checkoutCore st p i = (ensureEntries st p i, .error [noCopiesErr bk.isbn]) := by
  simp only [checkoutCore, h]
  rw [if_pos (by rwa [bookHolders_ensure])]

theorem checkoutCore_dup (st : LibState) (p i : String) (bk : XBook)
    (h : getRec st.booksIndex i = some bk)
    (hfull : ¬ bk.nCopies ≤ ((bookHolders st i).length : Int))
    (hdup : i ∈ patronHeld st p) :
    checkoutCore st p i = (ensureEntries st p i, .error [alreadyOutErr i p]) := by
  simp only [checkoutCore, h]
  rw [if_neg (by rwa [bookHolders_ensure]), if_pos (by rwa [patronHeld_ensure])]

theorem checkoutCore_succ (st : LibState) (p i : String) (bk : XBook)
    (h : getRec st.booksIndex i = some bk)
    (hfull : ¬ bk.nCopies ≤ ((bookHolders st i).length : Int))
    (hnew : i ∉ patronHeld st p) :
    checkoutCore st p i =
      ({ st with patronBooks := setRec st.patronBooks p (patronHeld st p ++ [i]),
                 checkBooks := setRec st.checkBooks i (bookHolders st i ++ [p]) },
       .ok ()) := by
  simp only [checkoutCore, h]
  rw [if_neg (by rwa [bookHolders_ensure]), if_neg (by rwa [patronHeld_ensure])]
  have h1 : patronHeld (ensureEntries st p i) p = patronHeld st p := patronHeld_ensure ..
  have h2 : bookHolders (ensureEntries st p i) i = bookHolders st i := bookHolders_ensure ..
  rw [h1, h2]
  unfold ensureEntries
  simp [setRec_setRec, patronHeld, bookHolders]

theorem returnCore_unknown (st : LibState) (p i : String)
    (h : getRec st.booksIndex i = none) :
    returnCore st p i = (st, .error [unknownBookErr i]) := by
  simp [returnCore, h]

theorem returnCore_noPatron (st : LibState) (p i : String) (bk : XBook)
    (h : getRec st.booksIndex i = some bk)
    (hp : getRec st.patronBooks p = none) :
    returnCore st p i = (st, .error [noPatronErr p]) := by
  simp [returnCore, h, hp]

theorem returnCore_notHeld (st : LibState) (p i : String) (bk : XBook) (held : List String)
    (h : getRec st.booksIndex i = some bk)
    (hp : getRec st.patronBooks p = some held)
    (hm : i ∉ held) :
    returnCore st p i = (st, .error [noCheckoutErr i p]) := by
  simp [returnCore, h, hp, hm]

theorem returnCore_succ_mem (st : LibState) (p i : String) (bk : XBook) (held : List String)
    (h : getRec st.booksIndex i = some bk)
    (hp : getRec st.patronBooks p = some held)
    (hm : i ∈ held)
    (hh : p ∈ bookHolders st i) :
    returnCore st p i =
      ({ st with patronBooks := setRec st.patronBooks p (held.erase i),
                 checkBooks := setRec st.checkBooks i ((bookHolders st i).erase p) },
       .ok ()) := by
  simp only [returnCore, h, hp]
  rw [if_pos hm, if_pos (by exact hh)]
  rfl

theorem returnCore_succ_notmem (st : LibState) (p i : String) (bk : XBook) (held : List String)
    (h : getRec st.booksIndex i = some bk)
    (hp : getRec st.patronBooks p = some held)
    (hm : i ∈ held)
    (hh : p ∉ bookHolders st i) :
    returnCore st p i =
      ({ st with patronBooks := setRec st.patronBooks p (held.erase i) }, .ok ()) := by
  simp only [returnCore, h, hp]
  rw [if_pos hm, if_neg (by exact hh)]

/-! Validation lemmas. -/

theorem checkoutBook_mkCkReq (st : LibState) (p i : String) :
    checkoutBook st (mkCkReq p i) = checkoutCore st p i := rfl

theorem returnBook_mkCkReq (st : LibState) (p i : String) :
    returnBook st (mkCkReq p i) = returnCore st p i := rfl

theorem checkBadReq_ok (req : JsRec) (s : Schema) (x : JsRec)
    (h : checkBadReq req s = .ok x) : badReqErrs req s = [] := by
  unfold checkBadReq at h
  split at h
  · cases h
  · next hlen => exact List.length_eq_zero.mp (Nat.eq_zero_of_not_pos hlen)

theorem checkRequiredProps_ok (req : JsRec) (s : Schema) (x : JsRec)
    (h : checkRequiredProps req s = .ok x) : missingErrs req s = [] := by
  unfold checkRequiredProps at h
  split at h
  · cases h
  · next hlen => exact List.length_eq_zero.mp (Nat.eq_zero_of_not_pos hlen)

theorem checkPropsType_ok (req : JsRec) (s : Schema) (x : JsRec)
    (h : checkPropsType req s = .ok x) : typeErrs req s = [] := by
  unfold checkPropsType at h
  split at h
  · cases h
  · next hlen => exact List.length_eq_zero.mp (Nat.eq_zero_of_not_pos hlen)

/-- A request that passes checkBadReq resolves its or-else-1 copy count to a
positive integer. -/
theorem reqNCopies_pos (req : JsRec) (x : JsRec)
    (hb : checkBadReq req RequiredType.Book = .ok x) :
    1 ≤ jsNum (reqNCopies req) := by
  have hb0 := checkBadReq_ok req _ x hb
  simp only [badReqErrs, RequiredType.Book, List.flatMap_cons, List.flatMap_nil,
    List.append_nil, List.append_eq_nil] at hb0
  obtain ⟨h1, h2, h3, h4, h5, h6, h7⟩ := hb0
  cases hv : getRec req "nCopies" with
  | none => simp [reqNCopies, hv, jsNum]
  | some v =>
    cases v with
    | null => simp [reqNCopies, hv, jsFalsy, jsNum]
    | num n =>
      by_cases hz : n = 0
      · simp [reqNCopies, hv, jsFalsy, hz, jsNum]
      · simp only [condErrs, hv] at h7
        simp [jsLeZero, jsNotInt, List.filter] at h7
        have hpos : ¬ n ≤ 0 := by
          intro hle
          simp [hle] at h7
        simp only [reqNCopies, hv, jsFalsy]
        rw [if_neg (by simpa using hz)]
        simp [jsNum]
        omega
    | str s2 =>
      simp [condErrs, hv, jsLeZero, jsNotInt, List.filter] at h7
    | bool b =>
      simp [condErrs, hv, jsLeZero, jsNotInt, List.filter] at h7
    | arr l =>
      simp [condErrs, hv, jsLeZero, jsNotInt, List.filter] at h7


theorem indexWords_cons (wi : List (String × List String)) (w0 : String) (rest : List String)
    (i : String) :
    indexWords wi (w0 :: rest) i =
      indexWords (setRec wi w0 (((getRec wi w0).getD []) ++ [i])) rest i := rfl

theorem mem_indexWords_mono (ws : List String) (wi : List (String × List String))
    (i j w : String) (h : j ∈ (getRec wi w).getD []) :
    j ∈ (getRec (indexWords wi ws i) w).getD [] := by
  induction ws generalizing wi with
  | nil => simpa [indexWords] using h
  | cons w0 rest ih =>
    rw [indexWords_cons]
    apply ih
    by_cases hw : w = w0
    · subst hw
      rw [getRec_setRec_self]
      simp only [Option.getD_some]
      exact List.mem_append_left _ h
    · rwa [getRec_setRec_ne _ _ _ _ hw]

theorem mem_indexWords_self (ws : List String) (wi : List (String × List String))
    (i w : String) (h : w ∈ ws) :
    i ∈ (getRec (indexWords wi ws i) w).getD [] := by
  induction ws generalizing wi with
  | nil => simp at h
  | cons w0 rest ih =>
    rw [indexWords_cons]
    rcases List.mem_cons.mp h with rfl | h
    · apply mem_indexWords_mono
      rw [getRec_setRec_self]
      simp
    · exact ih _ h

theorem mem_indexWords (ws : List String) (wi : List (String × List String))
    (i j w : String) (h : j ∈ (getRec (indexWords wi ws i) w).getD []) :
    j ∈ (getRec wi w).getD [] ∨ j = i := by
  induction ws generalizing wi with
  | nil => exact Or.inl (by simpa [indexWords] using h)
  | cons w0 rest ih =>
    rw [indexWords_cons] at h
    rcases ih _ h with hm | hm
    · by_cases hw : w = w0
      · subst hw
        rw [getRec_setRec_self] at hm
        simp only [Option.getD_some] at hm
        rcases List.mem_append.mp hm with hm | hm
        · exact Or.inl hm
        · simp at hm
          exact Or.inr hm
      · rw [getRec_setRec_ne _ _ _ _ hw] at hm
        exact Or.inl hm
    · exact Or.inr hm

/-- The reachability invariant: the two ledger mappings agree on pair counts,
no pair is recorded twice, holder lists never exceed the stored copy count,
unregistered identifiers have no holders, every indexed identifier is
registered, and every stored record carries its key as isbn. -/
structure Inv (st : LibState) : Prop where
  cnt : ∀ p i, (patronHeld st p).count i = (bookHolders st i).count p
  cntP : ∀ p i, (patronHeld st p).count i ≤ 1
  copies : ∀ i bk, getRec st.booksIndex i = some bk →
    ((bookHolders st i).length : Int) ≤ bk.nCopies
  unreg : ∀ i, getRec st.booksIndex i = none → bookHolders st i = []
  wiReg : ∀ w j, j ∈ getWI st w → (getRec st.booksIndex j).isSome = true
  keyed : ∀ i bk, getRec st.booksIndex i = some bk → bk.isbn = i

theorem Inv_empty : Inv emptyLib := by
  constructor <;>
    simp [patronHeld, bookHolders, getWI, emptyLib, getRec]

theorem Inv_ensure (st : LibState) (p i : String) (h : Inv st) :
    Inv (ensureEntries st p i) := by
  constructor
  · intro q j
    rw [patronHeld_ensure, bookHolders_ensure]
    exact h.cnt q j
  · intro q j
    rw [patronHeld_ensure]
    exact h.cntP q j
  · intro j bk hb
    rw [bookHolders_ensure]
    exact h.copies j bk hb
  · intro j hb
    rw [bookHolders_ensure]
    exact h.unreg j hb
  · intro w j hw
    exact h.wiReg w j hw
  · intro j bk hb
    exact h.keyed j bk hb



theorem Inv_push (st : LibState) (p i : String) (bk : XBook)
    (h : Inv st) (hb : getRec st.booksIndex i = some bk)
    (hfull : ¬ bk.nCopies ≤ ((bookHolders st i).length : Int))
    (hnew : i ∉ patronHeld st p) :
    Inv { st with patronBooks := setRec st.patronBooks p (patronHeld st p ++ [i]),
                  checkBooks := setRec st.checkBooks i (bookHolders st i ++ [p]) } := by
  have hnewH : p ∉ bookHolders st i := by
    intro hmem
    have h1 : 0 < (bookHolders st i).count p := List.count_pos_iff.mpr hmem
    rw [← h.cnt p i] at h1
    exact hnew (List.count_pos_iff.mp h1)
  have hPH : ∀ q, patronHeld { st with
      patronBooks := setRec st.patronBooks p (patronHeld st p ++ [i]),
      checkBooks := setRec st.checkBooks i (bookHolders st i ++ [p]) } q =
      if q = p then patronHeld st p ++ [i] else patronHeld st q := by
    intro q
    by_cases hq : q = p
    · subst hq
      simp [patronHeld, getRec_setRec_self]
    · simp [patronHeld, getRec_setRec_ne _ _ _ _ hq, hq]
  have hBH : ∀ j, bookHolders { st with
      patronBooks := setRec st.patronBooks p (patronHeld st p ++ [i]),
      checkBooks := setRec st.checkBooks i (bookHolders st i ++ [p]) } j =
      if j = i then bookHolders st i ++ [p] else bookHolders st j := by
    intro j
    by_cases hj : j = i
    · subst hj
      simp [bookHolders, getRec_setRec_self]
    · simp [bookHolders, getRec_setRec_ne _ _ _ _ hj, hj]
  constructor
  · intro q j
    rw [hPH, hBH]
    by_cases hq : q = p <;> by_cases hj : j = i <;>
      simp [hq, hj, List.count_append, List.count_singleton', h.cnt,
        List.count_eq_zero.mpr hnew, List.count_eq_zero.mpr hnewH]
  · intro q j
    rw [hPH]
    by_cases hq : q = p <;> by_cases hj : j = i <;>
      simp [hq, hj, List.count_append, List.count_singleton', h.cntP,
        List.count_eq_zero.mpr hnew]
  · intro j bk2 hb2
    rw [hBH]
    by_cases hj : j = i
    · subst hj
      rw [hb] at hb2
      cases hb2
      rw [if_pos rfl]
      simp only [List.length_append, List.length_singleton]
      push_cast
      omega
    · rw [if_neg hj]
      exact h.copies j bk2 hb2
  · intro j hb2
    rw [hBH]
    by_cases hj : j = i
    · subst hj
      rw [hb] at hb2
      cases hb2
    · rw [if_neg hj]
      exact h.unreg j hb2
  · intro w j hw
    exact h.wiReg w j hw
  · intro j bk2 hb2
    exact h.keyed j bk2 hb2



theorem Inv_erase (st : LibState) (p i : String) (bk : XBook) (held : List String)
    (h : Inv st) (hb : getRec st.booksIndex i = some bk)
    (hp : getRec st.patronBooks p = some held) (hm : i ∈ held)
    (hh : p ∈ bookHolders st i) :
    Inv { st with patronBooks := setRec st.patronBooks p (held.erase i),
                  checkBooks := setRec st.checkBooks i ((bookHolders st i).erase p) } := by
  have hheld : patronHeld st p = held := by simp [patronHeld, hp]
  have hPH : ∀ q, patronHeld { st with
      patronBooks := setRec st.patronBooks p (held.erase i),
      checkBooks := setRec st.checkBooks i ((bookHolders st i).erase p) } q =
      if q = p then held.erase i else patronHeld st q := by
    intro q
    by_cases hq : q = p
    · simp [patronHeld, hq, getRec_setRec_self]
    · simp [patronHeld, getRec_setRec_ne _ _ _ _ hq, hq]
  have hBH : ∀ j, bookHolders { st with
      patronBooks := setRec st.patronBooks p (held.erase i),
      checkBooks := setRec st.checkBooks i ((bookHolders st i).erase p) } j =
      if j = i then (bookHolders st i).erase p else bookHolders st j := by
    intro j
    by_cases hj : j = i
    · simp [bookHolders, hj, getRec_setRec_self]
    · simp [bookHolders, getRec_setRec_ne _ _ _ _ hj, hj]
  constructor
  · intro q j
    rw [hPH, hBH]
    by_cases hq : q = p
    · rw [if_pos hq, ← hheld, hq]
      by_cases hj : j = i
      · rw [if_pos hj, hj, List.count_erase_self, List.count_erase_self, h.cnt]
      · rw [if_neg hj, List.count_erase_of_ne hj, h.cnt]
    · rw [if_neg hq]
      by_cases hj : j = i
      · rw [if_pos hj, hj, List.count_erase_of_ne hq, h.cnt]
      · rw [if_neg hj]
        exact h.cnt q j
  · intro q j
    rw [hPH]
    by_cases hq : q = p
    · rw [if_pos hq, ← hheld]
      by_cases hj : j = i
      · rw [hj, List.count_erase_self]
        have := h.cntP p i
        omega
      · rw [List.count_erase_of_ne hj]
        exact h.cntP p j
    · rw [if_neg hq]
      exact h.cntP q j
  · intro j bk2 hb2
    rw [hBH]
    by_cases hj : j = i
    · rw [if_pos hj]
      have hlen : ((bookHolders st i).erase p).length ≤ (bookHolders st i).length :=
        (List.erase_sublist p (bookHolders st i)).length_le
      have hold := h.copies j bk2 hb2
      rw [hj] at hold
      omega
    · rw [if_neg hj]
      exact h.copies j bk2 hb2
  · intro j hb2
    rw [hBH]
    by_cases hj : j = i
    · rw [hj] at hb2
      rw [hb] at hb2
      cases hb2
    · rw [if_neg hj]
      exact h.unreg j hb2
  · intro w j hw
    exact h.wiReg w j hw
  · intro j bk2 hb2
    exact h.keyed j bk2 hb2



theorem Inv_checkoutCore (st : LibState) (p i : String) (h : Inv st) :
    Inv (checkoutCore st p i).1 := by
  cases hb : getRec st.booksIndex i with
  | none => rw [checkoutCore_unknown st p i hb]; exact h
  | some bk =>
    by_cases hfull : bk.nCopies ≤ ((bookHolders st i).length : Int)
    · rw [checkoutCore_full st p i bk hb hfull]
      exact Inv_ensure st p i h
    · by_cases hdup : i ∈ patronHeld st p
      · rw [checkoutCore_dup st p i bk hb hfull hdup]
        exact Inv_ensure st p i h
      · rw [checkoutCore_succ st p i bk hb hfull hdup]
        exact Inv_push st p i bk h hb hfull hdup

theorem Inv_returnCore (st : LibState) (p i : String) (h : Inv st) :
    Inv (returnCore st p i).1 := by
  cases hb : getRec st.booksIndex i with
  | none => rw [returnCore_unknown st p i hb]; exact h
  | some bk =>
    cases hp : getRec st.patronBooks p with
    | none => rw [returnCore_noPatron st p i bk hb hp]; exact h
    | some held =>
      by_cases hm : i ∈ held
      · have hh : p ∈ bookHolders st i := by
          have h1 : 0 < held.count i := List.count_pos_iff.mpr hm
          have h2 : patronHeld st p = held := by simp [patronHeld, hp]
          have h3 := h.cnt p i
          rw [h2] at h3
          rw [h3] at h1
          exact List.count_pos_iff.mp h1
        rw [returnCore_succ_mem st p i bk held hb hp hm hh]
        exact Inv_erase st p i bk held h hb hp hm hh
      · rw [returnCore_notHeld st p i bk held hb hp hm]
        exact h

theorem Inv_checkoutBook (st : LibState) (req : JsRec) (h : Inv st) :
    Inv (checkoutBook st req).1 := by
  unfold checkoutBook
  cases hr : checkRequiredProps req RequiredType.CheckBook with
  | error es => exact h
  | ok x =>
    cases ht : checkPropsType req RequiredType.CheckBook with
    | error es => exact h
    | ok y => exact Inv_checkoutCore st _ _ h

theorem Inv_returnBook (st : LibState) (req : JsRec) (h : Inv st) :
    Inv (returnBook st req).1 := by
  unfold returnBook
  cases hr : checkRequiredProps req RequiredType.CheckBook with
  | error es => exact h
  | ok x =>
    cases ht : checkPropsType req RequiredType.CheckBook with
    | error es => exact h
    | ok y => exact Inv_returnCore st _ _ h



theorem Inv_updateCopies (st : LibState) (i : String) (existing : XBook) (n : Int)
    (h : Inv st) (hbi : getRec st.booksIndex i = some existing) (hn : 0 ≤ n) :
    Inv { st with booksIndex :=
            setRec st.booksIndex i { existing with nCopies := existing.nCopies + n } } := by
  constructor
  · exact h.cnt
  · exact h.cntP
  · intro j bk2 hb2
    show ((bookHolders st j).length : Int) ≤ bk2.nCopies
    by_cases hj : j = i
    · rw [hj] at hb2 ⊢
      rw [getRec_setRec_self] at hb2
      injection hb2 with hbk
      rw [← hbk]
      have := h.copies i existing hbi
      simp only []
      omega
    · rw [getRec_setRec_ne _ _ _ _ hj] at hb2
      exact h.copies j bk2 hb2
  · intro j hb2
    by_cases hj : j = i
    · rw [hj, getRec_setRec_self] at hb2
      cases hb2
    · rw [getRec_setRec_ne _ _ _ _ hj] at hb2
      exact h.unreg j hb2
  · intro w j hw
    have hold := h.wiReg w j hw
    show (getRec (setRec st.booksIndex i _) j).isSome = true
    by_cases hj : j = i
    · rw [hj, getRec_setRec_self]
      rfl
    · rw [getRec_setRec_ne _ _ _ _ hj]
      exact hold
  · intro j bk2 hb2
    by_cases hj : j = i
    · rw [hj] at hb2 ⊢
      rw [getRec_setRec_self] at hb2
      injection hb2 with hbk
      rw [← hbk]
      exact h.keyed i existing hbi
    · rw [getRec_setRec_ne _ _ _ _ hj] at hb2
      exact h.keyed j bk2 hb2

theorem Inv_register (st : LibState) (isbn : String) (bkNew : XBook) (words : List String)
    (h : Inv st) (hbi : getRec st.booksIndex isbn = none) (hn : 0 ≤ bkNew.nCopies)
    (hkey : bkNew.isbn = isbn) :
    Inv { st with booksIndex := setRec st.booksIndex isbn bkNew,
                  wordIndex := indexWords st.wordIndex words isbn } := by
  constructor
  · exact h.cnt
  · exact h.cntP
  · intro j bk2 hb2
    show ((bookHolders st j).length : Int) ≤ bk2.nCopies
    by_cases hj : j = isbn
    · rw [hj] at hb2 ⊢
      rw [getRec_setRec_self] at hb2
      injection hb2 with hbk
      rw [← hbk]
      rw [h.unreg isbn hbi]
      simpa using hn
    · rw [getRec_setRec_ne _ _ _ _ hj] at hb2
      exact h.copies j bk2 hb2
  · intro j hb2
    by_cases hj : j = isbn
    · rw [hj, getRec_setRec_self] at hb2
      cases hb2
    · rw [getRec_setRec_ne _ _ _ _ hj] at hb2
      exact h.unreg j hb2
  · intro w j hw
    have hw2 : j ∈ (getRec (indexWords st.wordIndex words isbn) w).getD [] := hw
    show (getRec (setRec st.booksIndex isbn bkNew) j).isSome = true
    rcases mem_indexWords words st.wordIndex isbn j w hw2 with hm | rfl
    · have hold := h.wiReg w j hm
      by_cases hj : j = isbn
      · rw [hj, getRec_setRec_self]
        rfl
      · rw [getRec_setRec_ne _ _ _ _ hj]
        exact hold
    · rw [getRec_setRec_self]
      rfl
  · intro j bk2 hb2
    by_cases hj : j = isbn
    · rw [hj] at hb2 ⊢
      rw [getRec_setRec_self] at hb2
      injection hb2 with hbk
      rw [← hbk]
      exact hkey
    · rw [getRec_setRec_ne _ _ _ _ hj] at hb2
      exact h.keyed j bk2 hb2

theorem addBook_err_required (st : LibState) (req : JsRec) (es : List Err)
    (hr : checkRequiredProps req RequiredType.Book = .error es) :
    addBook st req = (st, .error es) := by
  simp [addBook, hr]

theorem addBook_err_type (st : LibState) (req : JsRec) (x : JsRec) (es : List Err)
    (hr : checkRequiredProps req RequiredType.Book = .ok x)
    (ht : checkPropsType req RequiredType.Book = .error es) :
    addBook st req = (st, .error es) := by
  simp [addBook, hr, ht]

theorem addBook_err_bad (st : LibState) (req : JsRec) (x y : JsRec) (es : List Err)
    (hr : checkRequiredProps req RequiredType.Book = .ok x)
    (ht : checkPropsType req RequiredType.Book = .ok y)
    (hbq : checkBadReq req RequiredType.Book = .error es) :
    addBook st req = (st, .error es) := by
  simp [addBook, hr, ht, hbq]

theorem addBook_err_incons (st : LibState) (req : JsRec) (x y z : JsRec)
    (existing : XBook) (es : List Err)
    (hr : checkRequiredProps req RequiredType.Book = .ok x)
    (ht : checkPropsType req RequiredType.Book = .ok y)
    (hbq : checkBadReq req RequiredType.Book = .ok z)
    (hbi : getRec st.booksIndex (jsStr (field req "isbn")) = some existing)
    (hic : checkInconsistentProps req existing = .error es) :
    addBook st req = (st, .error es) := by
  simp [addBook, hr, ht, hbq, hbi, hic]

theorem addBook_update (st : LibState) (req : JsRec) (x y z u : JsRec) (existing : XBook)
    (hr : checkRequiredProps req RequiredType.Book = .ok x)
    (ht : checkPropsType req RequiredType.Book = .ok y)
    (hbq : checkBadReq req RequiredType.Book = .ok z)
    (hbi : getRec st.booksIndex (jsStr (field req "isbn")) = some existing)
    (hic : checkInconsistentProps req existing = .ok u) :
    addBook st req =
      (⟨setRec st.booksIndex (jsStr (field req "isbn"))
          ({ existing with nCopies := existing.nCopies + jsNum (reqNCopies req) }),
        st.patronBooks, st.checkBooks, st.wordIndex⟩,
       .ok ({ existing with nCopies := existing.nCopies + jsNum (reqNCopies req) })) := by
  simp [addBook, hr, ht, hbq, hbi, hic]

theorem addBook_new (st : LibState) (req : JsRec) (x y z : JsRec)
    (hr : checkRequiredProps req RequiredType.Book = .ok x)
    (ht : checkPropsType req RequiredType.Book = .ok y)
    (hbq : checkBadReq req RequiredType.Book = .ok z)
    (hbi : getRec st.booksIndex (jsStr (field req "isbn")) = none) :
    addBook st req =
      (⟨setRec st.booksIndex (jsStr (field req "isbn"))
          (mkXBook req (jsNum (reqNCopies req))),
        st.patronBooks, st.checkBooks,
        indexWords st.wordIndex
          (extractWords (jsStr (field req "title")) ++
            (jsStrList (field req "authors")).flatMap extractWords)
          (jsStr (field req "isbn"))⟩,
       .ok (mkXBook req (jsNum (reqNCopies req)))) := by
  simp [addBook, hr, ht, hbq, hbi]

theorem Inv_addBook (st : LibState) (req : JsRec) (h : Inv st) :
    Inv (addBook st req).1 := by
  cases hr : checkRequiredProps req RequiredType.Book with
  | error es =>
    rw [addBook_err_required st req es hr]
    exact h
  | ok x =>
  cases ht : checkPropsType req RequiredType.Book with
  | error es =>
    rw [addBook_err_type st req x es hr ht]
    exact h
  | ok y =>
  cases hbq : checkBadReq req RequiredType.Book with
  | error es =>
    rw [addBook_err_bad st req x y es hr ht hbq]
    exact h
  | ok z =>
  cases hbi : getRec st.booksIndex (jsStr (field req "isbn")) with
  | some existing =>
    cases hic : checkInconsistentProps req existing with
    | error es =>
      rw [addBook_err_incons st req x y z existing es hr ht hbq hbi hic]
      exact h
    | ok u =>
      rw [addBook_update st req x y z u existing hr ht hbq hbi hic]
      have hn : (0 : Int) ≤ jsNum (reqNCopies req) := by
        have := reqNCopies_pos req z hbq
        omega
      exact Inv_updateCopies st _ existing _ h hbi hn
  | none =>
    rw [addBook_new st req x y z hr ht hbq hbi]
    have hn : (0 : Int) ≤ (mkXBook req (jsNum (reqNCopies req))).nCopies := by
      have := reqNCopies_pos req z hbq
      simp only [mkXBook]
      omega
    exact Inv_register st _ (mkXBook req (jsNum (reqNCopies req))) _ h hbi hn rfl

theorem Inv_applyOp (st : LibState) (op : Op) (h : Inv st) : Inv (applyOp st op) := by
  cases op with
  | add req => exact Inv_addBook st req h
  | checkout req => exact Inv_checkoutBook st req h
  | ret req => exact Inv_returnBook st req h

theorem Inv_runOps (ops : List Op) : ∀ st, Inv st → Inv (runOps st ops) := by
  induction ops with
  | nil => intro st h; exact h
  | cons op rest ih => intro st h; exact ih _ (Inv_applyOp st op h)

theorem Inv_reach (ops : List Op) : Inv (runOps emptyLib ops) :=
  Inv_runOps ops emptyLib Inv_empty


/-- C1: the spec says findBooks returns the intersection of the word-index
matches of all query tokens, each subsequent token only narrowing the set.
The code contradicts this (and its own doc comment): whenever the running
intersection becomes empty, intersectionSet restarts from the next token's
full match set. Concretely, with only Water Only registered, the token sea
matches nothing, yet the search sea water returns the book, which does not
match sea. -/
theorem claim1_bug :
    getWI wst1 "sea" = [] ∧
    "sea" ∈ extractWords "sea water" ∧
    findBooks wst1 (mkFindReq "sea water") = .ok [wbook1] := by
  decide

/-- C2: over every operation sequence from the empty library, a registered
identifier never has more holders than its stored copy count, and no
(patron, identifier) pair is recorded twice in either ledger direction. -/
theorem claim2 (ops : List Op) (i : String) (bk : XBook)
    (h : getRec (runOps emptyLib ops).booksIndex i = some bk) :
    ((bookHolders (runOps emptyLib ops) i).length : Int) ≤ bk.nCopies ∧
    (∀ p, (bookHolders (runOps emptyLib ops) i).count p ≤ 1 ∧
          (patronHeld (runOps emptyLib ops) p).count i ≤ 1) := by
  have hinv := Inv_reach ops
  refine ⟨hinv.copies i bk h, fun p => ⟨?_, hinv.cntP p i⟩⟩
  rw [← hinv.cnt p i]
  exact hinv.cntP p i

/-- C2 witness at a concrete two-operation run. -/
theorem claim2_witness :
    getRec (runOps emptyLib [Op.add wreq1, Op.checkout (mkCkReq "pa" "b1")]).booksIndex "b1" =
      some wbook1 ∧
    (((bookHolders (runOps emptyLib [Op.add wreq1, Op.checkout (mkCkReq "pa" "b1")]) "b1").length :
        Int) ≤ wbook1.nCopies ∧
      (∀ p, (bookHolders (runOps emptyLib [Op.add wreq1, Op.checkout (mkCkReq "pa" "b1")])
              "b1").count p ≤ 1 ∧
            (patronHeld (runOps emptyLib [Op.add wreq1, Op.checkout (mkCkReq "pa" "b1")])
              p).count "b1" ≤ 1)) :=
  ⟨by decide, claim2 [Op.add wreq1, Op.checkout (mkCkReq "pa" "b1")] "b1" wbook1 (by decide)⟩

/-- C4: after every operation sequence from the empty library the two ledger
mappings are exact inverses: a patron is among a book's holders exactly when
the book is among the patron's held identifiers. -/
theorem claim4 (ops : List Op) (p i : String) :
    p ∈ bookHolders (runOps emptyLib ops) i ↔ i ∈ patronHeld (runOps emptyLib ops) p := by
  have hinv := Inv_reach ops
  constructor
  · intro hm
    have h1 := List.count_pos_iff.mpr hm
    rw [← hinv.cnt p i] at h1
    exact List.count_pos_iff.mp h1
  · intro hm
    have h1 := List.count_pos_iff.mpr hm
    rw [hinv.cnt p i] at h1
    exact List.count_pos_iff.mp h1

/-- C3 counterexample: the claim asks for the ledger to be exactly unchanged
on a full-copies checkout failure, but the failing call creates an empty
patronBooks entry for a previously unseen patron, so the mapping changes. -/
theorem claim3_cex :
    getRec c3st.booksIndex "b1" = some wbook1 ∧
    ((bookHolders c3st "b1").length : Int) = wbook1.nCopies ∧
    "b1" ∉ patronHeld c3st "pb" ∧
    (checkoutBook c3st (mkCkReq "pb" "b1")).2 = .error [noCopiesErr "b1"] ∧
    (checkoutBook c3st (mkCkReq "pb" "b1")).1.patronBooks ≠ c3st.patronBooks := by
  decide

/-- C3 amended: when a registered identifier has as many holders as copies,
checkout by a patron not holding it fails with the BAD_REQ no-copies error
and leaves every patron's held list, every book's holder list, the catalog
and the word index unchanged; only empty ledger entries may be created. -/
theorem claim3_amended (st : LibState) (p i : String) (bk : XBook)
    (hb : getRec st.booksIndex i = some bk)
    (hfull : ((bookHolders st i).length : Int) = bk.nCopies)
    (hnot : i ∉ patronHeld st p) :
    (checkoutBook st (mkCkReq p i)).2 = .error [noCopiesErr bk.isbn] ∧
    (∀ q, patronHeld (checkoutBook st (mkCkReq p i)).1 q = patronHeld st q) ∧
    (∀ j, bookHolders (checkoutBook st (mkCkReq p i)).1 j = bookHolders st j) ∧
    (checkoutBook st (mkCkReq p i)).1.booksIndex = st.booksIndex ∧
    (checkoutBook st (mkCkReq p i)).1.wordIndex = st.wordIndex := by
  rw [checkoutBook_mkCkReq]
  rw [checkoutCore_full st p i bk hb (le_of_eq hfull.symm)]
  exact ⟨rfl, fun q => patronHeld_ensure st p i q, fun j => bookHolders_ensure st p i j,
    rfl, rfl⟩

/-- C3 amended witness at the concrete full-book state. -/
theorem claim3_amended_witness :
    (checkoutBook c3st (mkCkReq "pb" "b1")).2 = .error [noCopiesErr wbook1.isbn] ∧
    (∀ q, patronHeld (checkoutBook c3st (mkCkReq "pb" "b1")).1 q = patronHeld c3st q) ∧
    (∀ j, bookHolders (checkoutBook c3st (mkCkReq "pb" "b1")).1 j = bookHolders c3st j) ∧
    (checkoutBook c3st (mkCkReq "pb" "b1")).1.booksIndex = c3st.booksIndex ∧
    (checkoutBook c3st (mkCkReq "pb" "b1")).1.wordIndex = c3st.wordIndex :=
  claim3_amended c3st "pb" "b1" wbook1 (by decide) (by decide) (by decide)



/-- C5: re-registering a registered identifier with a differing required field
makes addBook fail with the BAD_REQ inconsistency errors, one of them naming
the differing field, and the state (hence the stored record) is unchanged. -/
theorem claim5 (st : LibState) (req x y z : JsRec) (bk : XBook) (f : String)
    (hr : checkRequiredProps req RequiredType.Book = .ok x)
    (ht : checkPropsType req RequiredType.Book = .ok y)
    (hbq : checkBadReq req RequiredType.Book = .ok z)
    (hbi : getRec st.booksIndex (jsStr (field req "isbn")) = some bk)
    (hf : f ∈ requiredBookFields)
    (hdiff : checkEqual (field req f) (bookField bk f) = true) :
    addBook st req = (st, .error (inconsistentErrs req bk)) ∧
    (∃ e ∈ inconsistentErrs req bk, e.widget = f ∧ e.code = "BAD_REQ") ∧
    ∀ e ∈ inconsistentErrs req bk, e.code = "BAD_REQ" := by
  have he : (⟨"Inconsistent data for property " ++ f ++ " in book " ++
      jsStr (field req "isbn"), f, "BAD_REQ"⟩ : Err) ∈ inconsistentErrs req bk := by
    apply List.mem_filterMap.mpr
    exact ⟨f, hf, by rw [if_pos hdiff]⟩
  have hne : inconsistentErrs req bk ≠ [] := List.ne_nil_of_mem he
  have hic : checkInconsistentProps req bk = .error (inconsistentErrs req bk) := by
    unfold checkInconsistentProps
    rw [if_pos (List.length_pos.mpr hne)]
  refine ⟨addBook_err_incons st req x y z bk _ hr ht hbq hbi hic, ⟨_, he, rfl, rfl⟩, ?_⟩
  intro e hme
  obtain ⟨a, _, hfa⟩ := List.mem_filterMap.mp hme
  by_cases hca : checkEqual (field req a) (bookField bk a) = true
  · rw [if_pos hca] at hfa
    cases hfa
    rfl
  · rw [if_neg hca] at hfa
    cases hfa

/-- C5 witness: re-registering b1 with a different title. -/
theorem claim5_witness :
    addBook wst1 wreq2 = (wst1, .error (inconsistentErrs wreq2 wbook1)) ∧
    (∃ e ∈ inconsistentErrs wreq2 wbook1, e.widget = "title" ∧ e.code = "BAD_REQ") ∧
    ∀ e ∈ inconsistentErrs wreq2 wbook1, e.code = "BAD_REQ" :=
  claim5 wst1 wreq2 wreq2 wreq2 wreq2 wbook1 "title" (by decide) (by decide) (by decide)
    (by decide) (by decide) (by decide)

/-- C6: re-registering a registered identifier with consistent required fields
adds the or-else-1 copy count to the stored record, leaves its other fields,
all other records, the word index and the ledger unchanged, and the added
count is 1 when the field is omitted. -/
theorem claim6 (st : LibState) (req x y z : JsRec) (bk : XBook)
    (hr : checkRequiredProps req RequiredType.Book = .ok x)
    (ht : checkPropsType req RequiredType.Book = .ok y)
    (hbq : checkBadReq req RequiredType.Book = .ok z)
    (hbi : getRec st.booksIndex (jsStr (field req "isbn")) = some bk)
    (hcons : inconsistentErrs req bk = []) :
    (addBook st req).2 = .ok ({ bk with nCopies := bk.nCopies + jsNum (reqNCopies req) }) ∧
    getRec (addBook st req).1.booksIndex (jsStr (field req "isbn")) =
      some ({ bk with nCopies := bk.nCopies + jsNum (reqNCopies req) }) ∧
    (∀ j, j ≠ jsStr (field req "isbn") →
      getRec (addBook st req).1.booksIndex j = getRec st.booksIndex j) ∧
    (addBook st req).1.wordIndex = st.wordIndex ∧
    (addBook st req).1.patronBooks = st.patronBooks ∧
    (addBook st req).1.checkBooks = st.checkBooks ∧
    (getRec req "nCopies" = none → jsNum (reqNCopies req) = 1) ∧
    1 ≤ jsNum (reqNCopies req) := by
  have hic : checkInconsistentProps req bk = .ok req := by
    unfold checkInconsistentProps
    rw [hcons]
    rfl
  have hAdd := addBook_update st req x y z req bk hr ht hbq hbi hic
  refine ⟨by rw [hAdd], ?_, ?_, by rw [hAdd], by rw [hAdd], by rw [hAdd], ?_,
    reqNCopies_pos req z hbq⟩
  · rw [hAdd]
    exact getRec_setRec_self st.booksIndex _ _
  · intro j hj
    rw [hAdd]
    exact getRec_setRec_ne st.booksIndex _ j _ hj
  · intro hnone
    simp [reqNCopies, hnone, jsNum]

/-- C6 witness: re-registering wreq1 (no nCopies field) adds one copy. -/
theorem claim6_witness :
    (addBook wst1 wreq1).2 = .ok ({ wbook1 with nCopies := wbook1.nCopies + jsNum (reqNCopies wreq1) }) ∧
    getRec (addBook wst1 wreq1).1.booksIndex (jsStr (field wreq1 "isbn")) =
      some ({ wbook1 with nCopies := wbook1.nCopies + jsNum (reqNCopies wreq1) }) ∧
    (∀ j, j ≠ jsStr (field wreq1 "isbn") →
      getRec (addBook wst1 wreq1).1.booksIndex j = getRec wst1.booksIndex j) ∧
    (addBook wst1 wreq1).1.wordIndex = wst1.wordIndex ∧
    (addBook wst1 wreq1).1.patronBooks = wst1.patronBooks ∧
    (addBook wst1 wreq1).1.checkBooks = wst1.checkBooks ∧
    (getRec wreq1 "nCopies" = none → jsNum (reqNCopies wreq1) = 1) ∧
    1 ≤ jsNum (reqNCopies wreq1) :=
  claim6 wst1 wreq1 wreq1 wreq1 wreq1 wbook1 (by decide) (by decide) (by decide)
    (by decide) (by decide)

/-- C9: an addBook request missing required fields fails with exactly the
accumulated MISSING errors, one per absent required field, no other error
kind, and the state is unchanged. -/
theorem claim9 (st : LibState) (req : JsRec) (f : String)
    (hf : f ∈ requiredBookFields) (hmiss : getRec req f = none) :
    addBook st req = (st, .error (missingErrs req RequiredType.Book)) ∧
    (∀ e ∈ missingErrs req RequiredType.Book, e.code = "MISSING") ∧
    (∀ g, g ∈ requiredBookFields → getRec req g = none →
       (missingErrs req RequiredType.Book).countP (fun e => e.widget == g) = 1) := by
  have hent : ∀ g, g ∈ requiredBookFields → getRec req g = none →
      g ∈ (RequiredType.Book.filter
        (fun kc => kc.2.required && (getRec req kc.1).isNone)).map Prod.fst := by
    intro g hg hgm
    obtain ⟨kc, hkc, hfst⟩ := List.mem_map.mp hg
    obtain ⟨hmem, hreq2⟩ := List.mem_filter.mp hkc
    apply List.mem_map.mpr
    refine ⟨kc, List.mem_filter.mpr ⟨hmem, ?_⟩, hfst⟩
    rw [Bool.and_eq_true]
    refine ⟨hreq2, ?_⟩
    rw [hfst, hgm]
    rfl
  have hgf := hent f hf hmiss
  obtain ⟨kc, hkcf, hfst⟩ := List.mem_map.mp hgf
  have he : (⟨"The Property " ++ f ++ " must be required", f, "MISSING"⟩ : Err) ∈
      missingErrs req RequiredType.Book := by
    apply List.mem_map.mpr
    exact ⟨kc, hkcf, by rw [hfst]⟩
  have hne : missingErrs req RequiredType.Book ≠ [] := List.ne_nil_of_mem he
  have hr : checkRequiredProps req RequiredType.Book =
      .error (missingErrs req RequiredType.Book) := by
    unfold checkRequiredProps
    rw [if_pos (List.length_pos.mpr hne)]
  refine ⟨addBook_err_required st req _ hr, ?_, ?_⟩
  · intro e hme
    obtain ⟨a, _, hfa⟩ := List.mem_map.mp hme
    rw [← hfa]
  · intro g hg hgm
    have hkeys : (RequiredType.Book.map Prod.fst).Nodup := by decide
    have hnd : ((RequiredType.Book.filter
        (fun kc => kc.2.required && (getRec req kc.1).isNone)).map Prod.fst).Nodup :=
      hkeys.sublist ((List.filter_sublist RequiredType.Book).map Prod.fst)
    have hcnt : ((RequiredType.Book.filter
        (fun kc => kc.2.required && (getRec req kc.1).isNone)).map Prod.fst).count g = 1 :=
      List.count_eq_one_of_mem hnd (hent g hg hgm)
    rw [List.count_eq_countP, List.countP_map] at hcnt
    unfold missingErrs
    rw [List.countP_map]
    exact hcnt

/-- C9 witness: a request with only the isbn field present. -/
theorem claim9_witness :
    addBook emptyLib [("isbn", JsVal.str "b9")] =
      (emptyLib, .error (missingErrs [("isbn", JsVal.str "b9")] RequiredType.Book)) ∧
    (∀ e ∈ missingErrs [("isbn", JsVal.str "b9")] RequiredType.Book, e.code = "MISSING") ∧
    (∀ g, g ∈ requiredBookFields → getRec [("isbn", JsVal.str "b9")] g = none →
       (missingErrs [("isbn", JsVal.str "b9")] RequiredType.Book).countP
         (fun e => e.widget == g) = 1) :=
  claim9 emptyLib [("isbn", JsVal.str "b9")] "title" (by decide) (by decide)



/-- A successful checkout through the public interface: result and the shape
of the updated ledger. -/
theorem checkout_spec (st : LibState) (p i : String) (bk : XBook)
    (hb : getRec st.booksIndex i = some bk)
    (hfull : ¬ bk.nCopies ≤ ((bookHolders st i).length : Int))
    (hnot : i ∉ patronHeld st p) :
    ∃ st2, checkoutBook st (mkCkReq p i) = (st2, .ok ()) ∧
      st2.booksIndex = st.booksIndex ∧
      getRec st2.patronBooks p = some (patronHeld st p ++ [i]) ∧
      bookHolders st2 i = bookHolders st i ++ [p] := by
  refine ⟨⟨st.booksIndex, setRec st.patronBooks p (patronHeld st p ++ [i]),
      setRec st.checkBooks i (bookHolders st i ++ [p]), st.wordIndex⟩, ?_, rfl, ?_, ?_⟩
  · rw [checkoutBook_mkCkReq]
    exact checkoutCore_succ st p i bk hb hfull hnot
  · exact getRec_setRec_self st.patronBooks p _
  · simp [bookHolders, getRec_setRec_self]

/-- A successful return through the public interface: result and the shape of
the updated ledger. -/
theorem return_spec (st : LibState) (p i : String) (bk : XBook) (held : List String)
    (hb : getRec st.booksIndex i = some bk)
    (hp : getRec st.patronBooks p = some held)
    (hm : i ∈ held)
    (hh : p ∈ bookHolders st i) :
    ∃ st2, returnBook st (mkCkReq p i) = (st2, .ok ()) ∧
      st2.booksIndex = st.booksIndex ∧
      getRec st2.patronBooks p = some (held.erase i) ∧
      bookHolders st2 i = (bookHolders st i).erase p := by
  refine ⟨⟨st.booksIndex, setRec st.patronBooks p (held.erase i),
      setRec st.checkBooks i ((bookHolders st i).erase p), st.wordIndex⟩, ?_, rfl, ?_, ?_⟩
  · rw [returnBook_mkCkReq]
    exact returnCore_succ_mem st p i bk held hb hp hm hh
  · exact getRec_setRec_self st.patronBooks p _
  · simp [bookHolders, getRec_setRec_self]

/-- C8: from a state where the identifier is registered, the patron does not
hold it and there is a free copy, checkout succeeds, the matching return
succeeds, and a second checkout of the same pair succeeds again. -/
theorem claim8 (st : LibState) (p i : String) (bk : XBook)
    (hb : getRec st.booksIndex i = some bk)
    (hnot : i ∉ patronHeld st p)
    (hlt : ((bookHolders st i).length : Int) < bk.nCopies) :
    (checkoutBook st (mkCkReq p i)).2 = .ok () ∧
    (returnBook (checkoutBook st (mkCkReq p i)).1 (mkCkReq p i)).2 = .ok () ∧
    (checkoutBook (returnBook (checkoutBook st (mkCkReq p i)).1 (mkCkReq p i)).1
        (mkCkReq p i)).2 = .ok () := by
  have hfull : ¬ bk.nCopies ≤ ((bookHolders st i).length : Int) := not_le.mpr hlt
  obtain ⟨st2, e1, hbi2, hp2, hbh2⟩ := checkout_spec st p i bk hb hfull hnot
  rw [e1]
  have hb2 : getRec st2.booksIndex i = some bk := by rw [hbi2]; exact hb
  have hm2 : i ∈ patronHeld st p ++ [i] :=
    List.mem_append_right _ (List.mem_singleton_self i)
  have hh2 : p ∈ bookHolders st2 i := by
    rw [hbh2]
    exact List.mem_append_right _ (List.mem_singleton_self p)
  obtain ⟨st3, e2, hbi3, hp3, hbh3⟩ :=
    return_spec st2 p i bk (patronHeld st p ++ [i]) hb2 hp2 hm2 hh2
  rw [e2]
  have her : (patronHeld st p ++ [i]).erase i = patronHeld st p := by
    rw [List.erase_append_right _ hnot]
    simp
  have hb3 : getRec st3.booksIndex i = some bk := by rw [hbi3]; exact hb2
  have hph3 : patronHeld st3 p = patronHeld st p := by
    rw [show patronHeld st3 p = (getRec st3.patronBooks p).getD [] from rfl, hp3]
    exact her
  have hnot3 : i ∉ patronHeld st3 p := by rw [hph3]; exact hnot
  have hfull3 : ¬ bk.nCopies ≤ ((bookHolders st3 i).length : Int) := by
    rw [hbh3, hbh2]
    have hle : ((bookHolders st i ++ [p]).erase p).length = (bookHolders st i).length := by
      rw [List.length_erase_of_mem (List.mem_append_right _ (List.mem_singleton_self p))]
      simp
    rw [hle]
    exact not_le.mpr hlt
  obtain ⟨st4, e3, _, _, _⟩ := checkout_spec st3 p i bk hb3 hfull3 hnot3
  rw [e3]
  exact ⟨rfl, rfl, rfl⟩

/-- C8 witness: checkout, return, checkout of the one-copy book b1. -/
theorem claim8_witness :
    (checkoutBook wst1 (mkCkReq "pa" "b1")).2 = .ok () ∧
    (returnBook (checkoutBook wst1 (mkCkReq "pa" "b1")).1 (mkCkReq "pa" "b1")).2 = .ok () ∧
    (checkoutBook (returnBook (checkoutBook wst1 (mkCkReq "pa" "b1")).1 (mkCkReq "pa" "b1")).1
        (mkCkReq "pa" "b1")).2 = .ok () :=
  claim8 wst1 "pa" "b1" wbook1 (by decide) (by decide) (by decide)



theorem findBooks_err_required (st : LibState) (req : JsRec) (es : List Err)
    (hr : checkRequiredProps req RequiredType.FindBook = .error es) :
    findBooks st req = .error es := by
  simp [findBooks, hr]

theorem findBooks_err_type (st : LibState) (req : JsRec) (x : JsRec) (es : List Err)
    (hr : checkRequiredProps req RequiredType.FindBook = .ok x)
    (ht : checkPropsType req RequiredType.FindBook = .error es) :
    findBooks st req = .error es := by
  simp [findBooks, hr, ht]

theorem findBooks_err_bad (st : LibState) (req : JsRec) (x y : JsRec) (es : List Err)
    (hr : checkRequiredProps req RequiredType.FindBook = .ok x)
    (ht : checkPropsType req RequiredType.FindBook = .ok y)
    (hbad : checkBadReq req RequiredType.FindBook = .error es) :
    findBooks st req = .error es := by
  simp [findBooks, hr, ht, hbad]

theorem findBooks_checked (st : LibState) (req : JsRec) (x y z : JsRec)
    (hr : checkRequiredProps req RequiredType.FindBook = .ok x)
    (ht : checkPropsType req RequiredType.FindBook = .ok y)
    (hbad : checkBadReq req RequiredType.FindBook = .ok z) :
    findBooks st req =
      (if (extractWords (jsStr (field req "search"))).length = 0 ∨
          ¬ (extractWords (jsStr (field req "search"))).any (fun w => decide (1 < w.length)) then
        .error [⟨"Empty search Query", "search", "BAD_REQ"⟩]
      else
        .ok (sortBooks
          (((extractWords (jsStr (field req "search"))).foldl
              (fun m w => intersectionSet m (jsSet (getWI st w))) []).map
            fun i => (getRec st.booksIndex i).getD dummyBook))) := by
  simp [findBooks, hr, ht, hbad]

/-- Inversion of a successful findBooks call: the result is the resolved,
sorted fold of intersections over the query words. -/
theorem findBooks_ok_inv (st : LibState) (req : JsRec) (bs : List XBook)
    (h : findBooks st req = .ok bs) :
    (extractWords (jsStr (field req "search"))).length ≠ 0 ∧
    bs = sortBooks
      (((extractWords (jsStr (field req "search"))).foldl
          (fun m w => intersectionSet m (jsSet (getWI st w))) []).map
        fun i => (getRec st.booksIndex i).getD dummyBook) := by
  cases hr : checkRequiredProps req RequiredType.FindBook with
  | error es =>
    rw [findBooks_err_required st req es hr] at h
    cases h
  | ok x =>
  cases ht : checkPropsType req RequiredType.FindBook with
  | error es =>
    rw [findBooks_err_type st req x es hr ht] at h
    cases h
  | ok y =>
  cases hbad : checkBadReq req RequiredType.FindBook with
  | error es =>
    rw [findBooks_err_bad st req x y es hr ht hbad] at h
    cases h
  | ok z =>
    rw [findBooks_checked st req x y z hr ht hbad] at h
    by_cases hcond : (extractWords (jsStr (field req "search"))).length = 0 ∨
        ¬ (extractWords (jsStr (field req "search"))).any (fun w => decide (1 < w.length))
    · rw [if_pos hcond] at h
      cases h
    · rw [if_neg hcond] at h
      injection h with h2
      refine ⟨?_, h2.symm⟩
      intro hz
      exact hcond (Or.inl hz)

/-- The intersection fold keeps its accumulator duplicate-free and, in a state
satisfying the invariant, all its members registered. -/
theorem fold_inter_good (st : LibState) (hinv : Inv st) (ws : List String) :
    ∀ m0, m0.Nodup → (∀ x ∈ m0, (getRec st.booksIndex x).isSome = true) →
      ((ws.foldl (fun m w => intersectionSet m (jsSet (getWI st w))) m0).Nodup ∧
       ∀ x ∈ ws.foldl (fun m w => intersectionSet m (jsSet (getWI st w))) m0,
         (getRec st.booksIndex x).isSome = true) := by
  induction ws with
  | nil => intro m0 h0 hP; exact ⟨h0, hP⟩
  | cons w rest ih =>
    intro m0 h0 hP
    rw [List.foldl_cons]
    apply ih
    · exact nodup_intersectionSet _ _ h0 (nodup_jsSet _)
    · intro x hx
      unfold intersectionSet at hx
      by_cases hm0 : m0.length ≠ 0
      · rw [if_pos hm0] at hx
        exact hP x (List.mem_of_mem_filter hx)
      · rw [if_neg hm0] at hx
        rw [mem_jsSet] at hx
        exact hinv.wiReg w x hx

/-- C10: for every reachable state, a successful findBooks result names each
identifier at most once, even though a word-index entry may list the same
identifier several times (a word occurring in both title and authors). -/
theorem claim10 (ops : List Op) (req : JsRec) (bs : List XBook)
    (h : findBooks (runOps emptyLib ops) req = .ok bs) :
    (bs.map XBook.isbn).Nodup := by
  have hinv := Inv_reach ops
  obtain ⟨hne, hbs⟩ := findBooks_ok_inv _ req bs h
  obtain ⟨hmn, hmr⟩ := fold_inter_good _ hinv
    (extractWords (jsStr (field req "search"))) [] List.nodup_nil (by simp)
  have hresolve : (((extractWords (jsStr (field req "search"))).foldl
      (fun m w => intersectionSet m (jsSet (getWI (runOps emptyLib ops) w))) []).map
        (fun i => (getRec (runOps emptyLib ops).booksIndex i).getD dummyBook)).map XBook.isbn =
      (extractWords (jsStr (field req "search"))).foldl
        (fun m w => intersectionSet m (jsSet (getWI (runOps emptyLib ops) w))) [] := by
    rw [List.map_map]
    have : ∀ i ∈ (extractWords (jsStr (field req "search"))).foldl
        (fun m w => intersectionSet m (jsSet (getWI (runOps emptyLib ops) w))) [],
        (XBook.isbn ∘ fun i => (getRec (runOps emptyLib ops).booksIndex i).getD dummyBook) i
          = i := by
      intro i hi
      obtain ⟨bk, hbk⟩ := Option.isSome_iff_exists.mp (hmr i hi)
      simp only [Function.comp_apply, hbk, Option.getD_some]
      exact hinv.keyed i bk hbk
    rw [List.map_congr_left this]
    simp
  rw [hbs]
  have hperm := (sortBooks_perm (((extractWords (jsStr (field req "search"))).foldl
      (fun m w => intersectionSet m (jsSet (getWI (runOps emptyLib ops) w))) []).map
        (fun i => (getRec (runOps emptyLib ops).booksIndex i).getD dummyBook))).map XBook.isbn
  rw [hperm.nodup_iff, hresolve]
  exact hmn

/-- C10 witness: a catalog whose word index holds the identifier twice under
the word water (title and author), searched for water. -/
theorem claim10_witness :
    findBooks (runOps emptyLib [Op.add wreq3]) (mkFindReq "water") = .ok [wbook3] ∧
    ([wbook3].map XBook.isbn).Nodup :=
  ⟨by decide, claim10 [Op.add wreq3] (mkFindReq "water") [wbook3] (by decide)⟩



/-- C7 counterexample: the title A Water of a successfully registered book
yields the token a, but searching exactly that word is rejected as an empty
search (no token longer than one character), so no list containing the book
is returned. -/
theorem claim7_cex :
    (addBook emptyLib areq).2 = .ok ⟨"b2", "A Water", ["Ann"], 50, 1999, "P", 1⟩ ∧
    "a" ∈ extractWords (jsStr (field areq "title")) ∧
    findBooks (addBook emptyLib areq).1 (mkFindReq "a") =
      .error [⟨"Empty search Query", "search", "BAD_REQ"⟩] := by
  decide

/-- A single-token query of length at least two resolves to the sorted,
resolved match set of that token. -/
theorem findBooks_single (st : LibState) (w : String)
    (hblank : jsBlank (JsVal.str w) = false)
    (hself : extractWords w = [w])
    (hlen : 1 < w.length) :
    findBooks st (mkFindReq w) =
      .ok (sortBooks ((jsSet (getWI st w)).map
        fun i => (getRec st.booksIndex i).getD dummyBook)) := by
  have hbad : checkBadReq (mkFindReq w) RequiredType.FindBook = .ok (mkFindReq w) := by
    unfold checkBadReq badReqErrs RequiredType.FindBook condErrs
    simp [getRec, hblank]
  rw [findBooks_checked st (mkFindReq w) (mkFindReq w) (mkFindReq w) (mkFindReq w)
    rfl rfl hbad]
  have hfw : jsStr (field (mkFindReq w) "search") = w := rfl
  rw [hfw, hself]
  rw [if_neg (by simp [hlen])]
  rw [List.foldl_cons, List.foldl_nil, intersectionSet_nil]

/-- C7 amended: for a book registered under a new identifier, searching any
title token of length at least two returns a list containing the book; and a
single-token search of length at least two for a word with no index entry
returns the empty list. The amendment excludes one-character tokens, which
findBooks rejects as an empty search. -/
theorem claim7_amended :
    (∀ st req st2 bk w, addBook st req = (st2, .ok bk) →
        getRec st.booksIndex (jsStr (field req "isbn")) = none →
        w ∈ extractWords (jsStr (field req "title")) → 1 < w.length →
        ∃ bs, findBooks st2 (mkFindReq w) = .ok bs ∧ bk ∈ bs) ∧
    (∀ st w, getRec st.wordIndex w = none → extractWords w = [w] → 1 < w.length →
        findBooks st (mkFindReq w) = .ok []) := by
  constructor
  · intro st req st2 bk w hAdd hbi hw hlen
    obtain ⟨hne, hgood⟩ := extractWords_good _ w hw
    have hself : extractWords w = [w] := extractWords_self w hne hgood
    have hblank : jsBlank (JsVal.str w) = false := by
      obtain ⟨c, hc⟩ := List.exists_mem_of_ne_nil _ hne
      exact jsBlank_false w c hc (hgood c hc).1
    cases hr : checkRequiredProps req RequiredType.Book with
    | error es =>
      rw [addBook_err_required st req es hr] at hAdd
      simp at hAdd
    | ok x =>
    cases ht : checkPropsType req RequiredType.Book with
    | error es =>
      rw [addBook_err_type st req x es hr ht] at hAdd
      simp at hAdd
    | ok y =>
    cases hbq : checkBadReq req RequiredType.Book with
    | error es =>
      rw [addBook_err_bad st req x y es hr ht hbq] at hAdd
      simp at hAdd
    | ok z =>
      rw [addBook_new st req x y z hr ht hbq hbi] at hAdd
      injection hAdd with hst2 hbk
      injection hbk with hbk
      have hwords : w ∈ extractWords (jsStr (field req "title")) ++
          (jsStrList (field req "authors")).flatMap extractWords :=
        List.mem_append_left _ hw
      have hmem : jsStr (field req "isbn") ∈ getWI st2 w := by
        rw [← hst2]
        exact mem_indexWords_self _ st.wordIndex _ w hwords
      refine ⟨_, findBooks_single st2 w hblank hself hlen, ?_⟩
      rw [mem_sortBooks]
      apply List.mem_map.mpr
      refine ⟨jsStr (field req "isbn"), (mem_jsSet _ _).mpr hmem, ?_⟩
      rw [← hst2]
      show (getRec (setRec st.booksIndex (jsStr (field req "isbn"))
          (mkXBook req (jsNum (reqNCopies req)))) (jsStr (field req "isbn"))).getD dummyBook
        = bk
      rw [getRec_setRec_self]
      exact hbk
  · intro st w hwi hself hlen
    have hne : w.data ≠ [] := by
      intro hd
      have : w.length = 0 := by simp [String.length, hd]
      omega
    have hblank : jsBlank (JsVal.str w) = false := by
      obtain ⟨hne2, hgood⟩ := extractWords_good w w (by rw [hself]; exact List.mem_singleton_self w)
      obtain ⟨c, hc⟩ := List.exists_mem_of_ne_nil _ hne2
      exact jsBlank_false w c hc (hgood c hc).1
    rw [findBooks_single st w hblank hself hlen]
    rw [show getWI st w = [] from by simp [getWI, hwi]]
    rfl

/-- C7 amended witness: registering Water Only in the empty library, the
search water returns it; the search zzzz (never indexed) returns nothing. -/
theorem claim7_amended_witness :
    (∃ bs, findBooks (addBook emptyLib wreq1).1 (mkFindReq "water") = .ok bs ∧ wbook1 ∈ bs) ∧
    findBooks wst1 (mkFindReq "zzzz") = .ok [] :=
  ⟨claim7_amended.1 emptyLib wreq1 (addBook emptyLib wreq1).1 wbook1 "water"
      (by decide) (by decide) (by decide) (by decide),
   claim7_amended.2 wst1 "zzzz" (by decide) (by decide) (by decide)⟩

end LL
